import Mathlib

/-!
Verification of the form-field action resolution pipeline of the Jobz2.0
repository (src/server.py).  The Python functions `convert_boolean_to_option`,
`resolve_profile_values`, `map_form_fields` (its parse-failure recovery),
`generate_application_content` (its parse-failure recovery) and the
`match_fields` request handler (steps 1-5 and response assembly) are embedded
as executable Lean functions.  External collaborators (the LLM mapping
generator, the cover-letter generator, the content generator, the resume
locator) are modelled as inputs to the pipeline, matching their contracts:
each is an `Option` value, `none` standing for a failed call or an
unparseable reply, exactly as the Python code catches those failures.

Strings are handled through their character lists so that the Python
operations `startswith`, slicing, `split('.')`, `in` and `lower()` have
direct, provable counterparts.
-/

namespace Jobz

/-- Scalar JSON values as they occur in the user profile and fill values. -/
inductive Val where
  | vStr (s : String)
  | vBool (b : Bool)
  | vNum (n : Int)
  | vNull
deriving DecidableEq, Repr

/-- Nested JSON values: a profile is a tree of objects with scalar leaves. -/
inductive PVal where
  | leaf (v : Val)
  | obj (entries : List (String × PVal))
deriving Repr

/-- Top-level user profile: a JSON object, as loaded by `load_profile`. -/
def Profile := List (String × PVal)

/-- Values of the action mapping returned by the external mapping generator.
JSON object values are either strings (action tags or profile paths), null,
or some other scalar (number/boolean); `mOther` stands for the latter, which
the Python code treats uniformly (all string checks fail on them). -/
inductive MVal where
  | mStr (s : String)
  | mNull
  | mOther
deriving DecidableEq, Repr

/-- An option of a select/radio field: the `value` and `text` keys of the
option dict, `none` when the key is absent. -/
structure OptEntry where
  value : Option String
  text : Option String
deriving DecidableEq, Repr

/-- The parts of a form-field descriptor that the pipeline logic reads:
`field.get('id','')`, `field.get('name','')` and `field.get('options',[])`. -/
structure Field where
  id : String
  name : String
  options : List OptEntry
deriving DecidableEq, Repr

/-- Result of the cover-letter collaborator `run_pipeline`:
`body_text`, `paragraph` and `docx_path`. -/
structure CoverResult where
  body_text : String
  paragraph : String
  docx_path : String
deriving DecidableEq, Repr

/-- Python `p.startswith(q)` on strings, via character lists. -/
def strStartsWith (s p : String) : Bool :=
  p.data.isPrefixOf s.data

/-- Python `'.' in s`. -/
def hasDot (s : String) : Bool :=
  s.data.contains '.'

/-- Python `s.lower()` (ASCII case folding, which covers every literal the
code compares against). -/
def strLower (s : String) : String :=
  ⟨s.data.map Char.toLower⟩

/-- Python `s[len(p):]`, dropping the length of `p` from the front of `s`. -/
def strDropLen (s p : String) : String :=
  ⟨s.data.drop p.data.length⟩

/-- Python `s.split('.')` as used by the profile path traversal. -/
def splitDot : List Char → List Char → List String
  | [], acc => [⟨acc.reverse⟩]
  | c :: rest, acc =>
    if c = '.' then ⟨acc.reverse⟩ :: splitDot rest []
    else splitDot rest (c :: acc)

/-- Python `s.split('.')` on a string. -/
def splitDotStr (s : String) : List String :=
  splitDot s.data []

/-- Embedding of `mapping_starts_with` (src/server.py): true iff the mapping
value is a string starting with the keyword. -/
def mapping_starts_with (mv : MVal) (keyword : String) : Bool :=
  match mv with
  | .mStr s => strStartsWith s keyword
  | _ => false

/-- Membership of a mapping value in `ALWAYS_HUMAN_ACTIONS`
(`{'NEEDS_HUMAN', 'SKIP', None}`). -/
def alwaysHumanB (mv : MVal) : Bool :=
  match mv with
  | .mStr s => s == "NEEDS_HUMAN" || s == "SKIP"
  | .mNull => true
  | .mOther => false

/-- Membership of a mapping value in `AUTO_FILLED_ACTIONS`. -/
def inAutoExact (mv : MVal) : Bool :=
  match mv with
  | .mStr s =>
    s == "RESUME_UPLOAD" || s == "COVER_LETTER_FULL" || s == "COVER_LETTER_BODY" ||
    s == "COVER_LETTER_WHY" || s == "GENERATE_ANSWER" || s == "ACKNOWLEDGE_TRUE"
  | _ => false

/-- Membership of a mapping value in `SPECIAL_ACTIONS` of
`resolve_profile_values` (nine tag strings plus `None`). -/
def isSpecialExact (mv : MVal) : Bool :=
  match mv with
  | .mStr s =>
    s == "RESUME_UPLOAD" || s == "COVER_LETTER_FULL" || s == "COVER_LETTER_BODY" ||
    s == "COVER_LETTER_WHY" || s == "GENERATE_ANSWER" || s == "NEEDS_HUMAN" ||
    s == "ACKNOWLEDGE_TRUE" || s == "SKIP" || s == "UNKNOWN"
  | .mNull => true
  | .mOther => false

/-- Python `any(mapping_starts_with(v, a) for a in SPECIAL_ACTIONS if a)`. -/
def startsAnySpecial (mv : MVal) : Bool :=
  mapping_starts_with mv "RESUME_UPLOAD" || mapping_starts_with mv "COVER_LETTER_FULL" ||
  mapping_starts_with mv "COVER_LETTER_BODY" || mapping_starts_with mv "COVER_LETTER_WHY" ||
  mapping_starts_with mv "GENERATE_ANSWER" || mapping_starts_with mv "NEEDS_HUMAN" ||
  mapping_starts_with mv "ACKNOWLEDGE_TRUE" || mapping_starts_with mv "SKIP" ||
  mapping_starts_with mv "UNKNOWN"

/-- Python `any(mapping_starts_with(v, a) for a in AUTO_FILLED_ACTIONS if a)`. -/
def startsAnyAuto (mv : MVal) : Bool :=
  mapping_starts_with mv "RESUME_UPLOAD" || mapping_starts_with mv "COVER_LETTER_FULL" ||
  mapping_starts_with mv "COVER_LETTER_BODY" || mapping_starts_with mv "COVER_LETTER_WHY" ||
  mapping_starts_with mv "GENERATE_ANSWER" || mapping_starts_with mv "ACKNOWLEDGE_TRUE"

/-- Mapping value matches one of the three cover-letter tags (the
`cover_letter_fields` filter of `match_fields`). -/
def coverTagB (mv : MVal) : Bool :=
  mapping_starts_with mv "COVER_LETTER_FULL" || mapping_starts_with mv "COVER_LETTER_BODY" ||
  mapping_starts_with mv "COVER_LETTER_WHY"

/-- Mapping value matches a content-generation tag (the `content_fields`
filter of `match_fields`). -/
def contentTagB (mv : MVal) : Bool :=
  mapping_starts_with mv "COVER_LETTER_FULL" || mapping_starts_with mv "COVER_LETTER_BODY" ||
  mapping_starts_with mv "COVER_LETTER_WHY" || mapping_starts_with mv "GENERATE_ANSWER"

/-- Python `opt.get('value','').lower()`. -/
def optValLower (o : OptEntry) : String := strLower (o.value.getD "")

/-- Python `opt.get('text','').lower()`. -/
def optTextLower (o : OptEntry) : String := strLower (o.text.getD "")

/-- First option whose `value` lowercases to the literal
(`next(opt for opt in field_options if opt.get('value','').lower() == lit)`),
producing `opt['value']`; matching by value guarantees the key exists. -/
def pickByValue (opts : List OptEntry) (lit : String) : Option (Except Unit Val) :=
  (opts.find? (fun o => optValLower o == lit)).map
    (fun o => Except.ok (Val.vStr (o.value.getD "")))

/-- First option whose `text` lowercases to the literal, producing
`opt['value']`; if the matched option has no `value` key the Python code
raises `KeyError`, modelled as `Except.error ()`. -/
def pickByText (opts : List OptEntry) (lit : String) : Option (Except Unit Val) :=
  (opts.find? (fun o => optTextLower o == lit)).map
    (fun o =>
      match o.value with
      | some s => Except.ok (Val.vStr s)
      | none => Except.error ())

/-- Embedding of `convert_boolean_to_option` (src/server.py lines 439-481).
Returns the matched option value, the original value when there is no match
or the input is not a boolean or the option list is empty, and an error for
the `KeyError` path (text matched on an option without a `value` key). -/
def convert_boolean_to_option (value : Val) (field_options : List OptEntry) :
    Except Unit Val :=
  match value with
  | .vBool b =>
    if field_options.isEmpty then .ok value
    else
      if b then
        ((pickByValue field_options "yes").orElse fun _ =>
          ((pickByText field_options "yes").orElse fun _ =>
            ((pickByValue field_options "true").orElse fun _ =>
              pickByText field_options "true"))).getD (.ok value)
      else
        ((pickByValue field_options "no").orElse fun _ =>
          ((pickByText field_options "no").orElse fun _ =>
            ((pickByValue field_options "false").orElse fun _ =>
              pickByText field_options "false"))).getD (.ok value)
  | _ => .ok value

/-- The dictionary insertions of the `field_map` built at the start of
`resolve_profile_values`: for each field, its id (if non-empty), its name
(if non-empty and different from the id), and the decimal string of
`fields.index(field)` (first structurally equal occurrence). -/
def fieldMapInserts (fields : List Field) : List (String × Field) :=
  fields.foldr
    (fun f acc =>
      ((if f.id != "" then [(f.id, f)] else []) ++
       (if f.name != "" && f.name != f.id then [(f.name, f)] else []) ++
       [(toString (fields.findIdx (fun g => g == f)), f)]) ++ acc) []

/-- Lookup in the `field_map` dictionary: a later insertion overwrites an
earlier one, so the lookup scans the insertions in reverse. -/
def fieldMapLookup (fields : List Field) (key : String) : Option Field :=
  (fieldMapInserts fields).reverse.lookup key

/-- Traversal of the nested profile dictionary one path segment at a time
(`resolve_profile_values`, standard path branch): a missing key or a
non-dict intermediate raises `KeyError`, modelled as `none`. -/
def traversePath : PVal → List String → Option PVal
  | cur, [] => some cur
  | .obj entries, p :: rest =>
    match entries.lookup p with
    | some v => traversePath v rest
    | none => none
  | .leaf _, _ :: _ => none

/-- Raw profile lookup of a mapping-value string: the `custom_answers.`
special case uses the whole remainder as one literal key, any other string
is split on `.` and walked through the profile. -/
def lookupRaw (profile : Profile) (s : String) : Option PVal :=
  if strStartsWith s "custom_answers." then
    match List.lookup "custom_answers" profile with
    | some (.obj entries) => entries.lookup (strDropLen s "custom_answers.")
    | _ => none
  else
    traversePath (.obj profile) (splitDotStr s)

/-- Spec-side description of the custom-answer lookup (section 4.2): strip
the `custom_answers.` tag and use the whole remainder as one literal key
into `profile.custom_answers`, `none` when the sub-mapping or key is
absent.  Stated separately from `lookupRaw` so that the source translation
can be proved to refine it. -/
def customKeyLookup (profile : Profile) (key : String) : Option PVal :=
  match List.lookup "custom_answers" profile with
  | some (.obj entries) => List.lookup key entries
  | _ => none

/-- Python `current_value is None or current_value == ''`, negated guard of
the fill decision in `resolve_profile_values`. -/
def isEmptyVal : PVal → Bool
  | .leaf .vNull => true
  | .leaf (.vStr s) => s == ""
  | _ => false

/-- Resolution of one `(field_id, mapping_value)` entry of the action
mapping by `resolve_profile_values` (src/server.py lines 541-623): `some`
is an entry added to `resolved_values`, `none` a skipped field (special
action, non-path value, unresolvable path, empty value, or a caught
`KeyError`/`TypeError`/`AttributeError`). -/
def resolveEntry (profile : Profile) (fields : List Field) (fid : String)
    (mv : MVal) : Option PVal :=
  if mapping_starts_with mv "ACKNOWLEDGE_TRUE" then
    some (.leaf (.vStr "Yes"))
  else if isSpecialExact mv then none
  else if startsAnySpecial mv then none
  else
    match mv with
    | .mStr s =>
      if hasDot s then
        match lookupRaw profile s with
        | some v =>
          if isEmptyVal v then none
          else
            match v with
            | .leaf (.vBool b) =>
              match fieldMapLookup fields fid with
              | some finfo =>
                if finfo.options.isEmpty then
                  some (.leaf (.vStr (if b then "Yes" else "No")))
                else
                  match convert_boolean_to_option (.vBool b) finfo.options with
                  | .ok cv => some (.leaf cv)
                  | .error _ => none
              | none => some (.leaf (.vStr (if b then "Yes" else "No")))
            | _ => some v
        | none => none
      else none
    | _ => none

/-- Embedding of `resolve_profile_values`: the resolved-values dictionary,
one entry per mapping entry whose resolution succeeds (JSON object keys are
unique, so dictionary insertion is a plain append). -/
def fieldValuesL (fm : List (String × MVal)) (profile : Profile)
    (fields : List Field) : List (String × PVal) :=
  fm.filterMap (fun p => (resolveEntry profile fields p.1 p.2).map (fun v => (p.1, v)))

/-- The `resume_fields` filter of `match_fields`. -/
def resumeFields (fm : List (String × MVal)) : List (String × MVal) :=
  fm.filter (fun p => mapping_starts_with p.2 "RESUME_UPLOAD")

/-- The `files['resume']` entry: the locator result, looked up only when at
least one field maps to `RESUME_UPLOAD`. -/
def filesResume (fm : List (String × MVal)) (resumePath : Option String) :
    Option String :=
  if resumeFields fm ≠ [] then resumePath else none

/-- The `cover_letter_fields` filter of `match_fields`. -/
def coverFields (fm : List (String × MVal)) : List (String × MVal) :=
  fm.filter (fun p => coverTagB p.2)

/-- Result of the cover-letter generation step: the collaborator reply is
used only when some field carries a cover-letter tag and both company name
and role title are non-empty (Python truthiness of the two strings);
`none` covers a skipped call and a raised exception alike. -/
def coverResultO (fm : List (String × MVal)) (company role : String)
    (coverReply : Option CoverResult) : Option CoverResult :=
  if coverFields fm ≠ [] ∧ company ≠ "" ∧ role ≠ "" then coverReply else none

/-- The `content_fields` filter of `match_fields`. -/
def contentFieldsL (fm : List (String × MVal)) : List (String × MVal) :=
  fm.filter (fun p => contentTagB p.2)

/-- The `generated_content` dictionary of `match_fields` step 4: the batch
call happens only when there are content fields and a non-empty grounding
text; an unparseable generator reply (`batchReply = none`) yields the empty
dictionary, and each parsed entry is kept only when its text is a non-empty
string not starting with `NEEDS_HUMAN` (a `none` entry models JSON null,
which is falsy). -/
def keepAnswer : String × Option String → Option (String × String)
  | (fid, some a) =>
    if a != "" && !(strStartsWith a "NEEDS_HUMAN") then some (fid, a) else none
  | (_, none) => none

/-- The `generated_content` dictionary of `match_fields` step 4: one
`keepAnswer`-surviving entry per parsed reply entry, produced only when the
batch call happens. -/
def genContentL (fm : List (String × MVal)) (coverText whyText : String)
    (batchReply : Option (List (String × Option String))) :
    List (String × String) :=
  if contentFieldsL fm ≠ [] ∧ (coverText ≠ "" ∨ whyText ≠ "") then
    (batchReply.getD []).filterMap keepAnswer
  else []

/-- The per-field escalation decision of `match_fields` step 5, an exact
translation of the if/elif chain over one mapping entry, given whether a
resume file is attached, whether the field has generated content, and
whether it has a resolved profile value. -/
def escB (mv : MVal) (resumeSome genHas fvHas : Bool) : Bool :=
  if alwaysHumanB mv then true
  else if mapping_starts_with mv "NEEDS_HUMAN" || mapping_starts_with mv "SKIP" then true
  else if mapping_starts_with mv "RESUME_UPLOAD" && !resumeSome then true
  else if contentTagB mv && !genHas then true
  else if mapping_starts_with mv "ACKNOWLEDGE_TRUE" then false
  else if !fvHas && !(inAutoExact mv) && !(alwaysHumanB mv) then !(startsAnyAuto mv)
  else false

/-- The `needs_human` list of `match_fields` step 5, in mapping order. -/
def needsHumanL (fm : List (String × MVal)) (resumeSome : Bool)
    (gc : List (String × String)) (fv : List (String × PVal)) : List String :=
  fm.filterMap (fun p =>
    if escB p.2 resumeSome ((gc.lookup p.1).isSome) ((fv.lookup p.1).isSome) then
      some p.1
    else none)

/-- The response assembled by `match_fields`: fill values are kept as the
two merged dictionaries (profile-resolved values and generated content). -/
structure Response where
  status : String
  field_mappings : List (String × MVal)
  fieldValues : List (String × PVal)
  genContent : List (String × String)
  files_resume : Option String
  files_cover : Option String
  needs_human : List String

/-- Lookup in the merged `fill_values` dictionary
(`fill_values.update(field_values); fill_values.update(generated_content)`):
generated content takes precedence on id collision. -/
def Response.fill (r : Response) (fid : String) : Option PVal :=
  match r.genContent.lookup fid with
  | some a => some (.leaf (.vStr a))
  | none => r.fieldValues.lookup fid

/-- The `cover_letter_text` variable of `match_fields`: empty unless the
cover-letter step ran and succeeded. -/
def ctextOf (fm : List (String × MVal)) (company role : String)
    (coverReply : Option CoverResult) : String :=
  ((coverResultO fm company role coverReply).map CoverResult.body_text).getD ""

/-- The `why_paragraph` variable of `match_fields`: empty unless the
cover-letter step ran and succeeded. -/
def wtextOf (fm : List (String × MVal)) (company role : String)
    (coverReply : Option CoverResult) : String :=
  ((coverResultO fm company role coverReply).map CoverResult.paragraph).getD ""

/-- Embedding of the whole `match_fields` handler (steps 1-5 and response
assembly) for a request whose body, configuration and profile loads
succeeded.  `mappingReply` is the parsed reply of the mapping generator
(`none` = JSON parse failure, handled by `map_form_fields` returning `{}`),
`resumePath` the resume locator result, `coverReply` the cover-letter
collaborator result (`none` = failure), `batchReply` the parsed reply of the
content generator (`none` = parse failure or call failure). -/
def pipeline (fields : List Field) (profile : Profile)
    (mappingReply : Option (List (String × MVal)))
    (resumePath : Option String) (company role : String)
    (coverReply : Option CoverResult)
    (batchReply : Option (List (String × Option String))) : Response :=
  let fm := mappingReply.getD []
  let fv := fieldValuesL fm profile fields
  let fr := filesResume fm resumePath
  let ctext := ctextOf fm company role coverReply
  let wtext := wtextOf fm company role coverReply
  let gc := genContentL fm ctext wtext batchReply
  { status := "complete"
    field_mappings := fm
    fieldValues := fv
    genContent := gc
    files_resume := fr
    files_cover := (coverResultO fm company role coverReply).map CoverResult.docx_path
    needs_human := needsHumanL fm fr.isSome gc fv }

/-- A content-generator reply is within the submitted batch when every
field id it mentions is mapped to a content-generation tag. -/
def replyWithinBatch (batchReply : Option (List (String × Option String)))
    (fm : List (String × MVal)) : Prop :=
  ∀ p ∈ batchReply.getD [], ∃ mv, (p.1, mv) ∈ fm ∧ contentTagB mv = true

/-- A field id is explicitly skipped when its mapping entry matches `SKIP`. -/
def skipB (fm : List (String × MVal)) (fid : String) : Bool :=
  fm.any (fun p => p.1 == fid && mapping_starts_with p.2 "SKIP")

/-! ### Helper lemmas about lists and strings -/

theorem lookup_isSome_iff {α : Type} (l : List (String × α)) (k : String) :
    (List.lookup k l).isSome = true ↔ ∃ v, (k, v) ∈ l := by
  induction l with
  | nil => simp [List.lookup]
  | cons p t ih =>
    obtain ⟨a, b⟩ := p
    by_cases h : k = a
    · subst h
      simp [List.lookup]
    · have hb : (k == a) = false := by simp [h]
      simp only [List.lookup, hb, List.mem_cons, ih]
      constructor
      · intro ⟨v, hv⟩
        exact ⟨v, Or.inr hv⟩
      · rintro ⟨v, hv | hv⟩
        · cases hv
          exact absurd rfl h
        · exact ⟨v, hv⟩

theorem lookup_isSome_of_mem {α : Type} {l : List (String × α)} {k : String}
    {v : α} (h : (k, v) ∈ l) : (List.lookup k l).isSome = true :=
  (lookup_isSome_iff l k).mpr ⟨v, h⟩

theorem lookup_eq_none_iff {α : Type} (l : List (String × α)) (k : String) :
    List.lookup k l = none ↔ ∀ v, (k, v) ∉ l := by
  rw [← Option.not_isSome_iff_eq_none, lookup_isSome_iff]
  push_neg
  exact Iff.rfl

theorem nodupKeys_val_eq {α : Type} {l : List (String × α)}
    (h : (l.map Prod.fst).Nodup) {k : String} {v₁ v₂ : α}
    (h1 : (k, v₁) ∈ l) (h2 : (k, v₂) ∈ l) : v₁ = v₂ := by
  induction l with
  | nil => cases h1
  | cons p t ih =>
    obtain ⟨a, b⟩ := p
    simp only [List.map_cons, List.nodup_cons] at h
    rcases List.mem_cons.mp h1 with he1 | ht1 <;>
      rcases List.mem_cons.mp h2 with he2 | ht2
    · cases he1; cases he2; rfl
    · cases he1
      exact absurd (List.mem_map_of_mem Prod.fst ht2) h.1
    · cases he2
      exact absurd (List.mem_map_of_mem Prod.fst ht1) h.1
    · exact ih h.2 ht1 ht2

theorem isPrefixOf_or {l₃ : List Char} : ∀ {l₁ l₂ : List Char},
    l₁.isPrefixOf l₃ = true → l₂.isPrefixOf l₃ = true →
    (l₁.isPrefixOf l₂ || l₂.isPrefixOf l₁) = true := by
  induction l₃ with
  | nil =>
    intro l₁ l₂ h1 h2
    cases l₁ <;> cases l₂ <;> simp_all [List.isPrefixOf]
  | cons c t ih =>
    intro l₁ l₂ h1 h2
    cases l₁ with
    | nil => simp [List.isPrefixOf]
    | cons a t₁ =>
      cases l₂ with
      | nil => simp [List.isPrefixOf]
      | cons b t₂ =>
        simp only [List.isPrefixOf, Bool.and_eq_true, beq_iff_eq] at h1 h2
        obtain ⟨ha, h1'⟩ := h1
        obtain ⟨hb, h2'⟩ := h2
        subst ha; subst hb
        simpa [List.isPrefixOf] using ih h1' h2'

theorem isPrefixOf_rfl (l : List Char) : l.isPrefixOf l = true := by
  induction l <;> simp_all [List.isPrefixOf]

theorem isPrefixOf_append_left (l m : List Char) : l.isPrefixOf (l ++ m) = true := by
  induction l <;> simp_all [List.isPrefixOf]

theorem startsConflict {s p q : String} (hp : strStartsWith s p = true)
    (hq : strStartsWith s q = true)
    (h : (p.data.isPrefixOf q.data || q.data.isPrefixOf p.data) = false) : False := by
  have hor := isPrefixOf_or hp hq
  rw [h] at hor
  exact Bool.noConfusion hor

theorem strStartsWith_self (s : String) : strStartsWith s s = true :=
  isPrefixOf_rfl s.data

theorem strStartsWith_append_left (p q : String) :
    strStartsWith (p ++ q) p = true := by
  unfold strStartsWith
  rw [String.data_append]
  exact isPrefixOf_append_left p.data q.data

theorem mswConflict {mv : MVal} {p q : String}
    (hp : mapping_starts_with mv p = true) (hq : mapping_starts_with mv q = true)
    (h : (p.data.isPrefixOf q.data || q.data.isPrefixOf p.data) = false) : False := by
  cases mv with
  | mStr s => exact startsConflict hp hq h
  | mNull => exact Bool.noConfusion hp
  | mOther => exact Bool.noConfusion hp

theorem msw_excl (q : String) {mv : MVal} {p : String}
    (hp : mapping_starts_with mv p = true)
    (h : (q.data.isPrefixOf p.data || p.data.isPrefixOf q.data) = false) :
    mapping_starts_with mv q = false := by
  cases hq : mapping_starts_with mv q
  · rfl
  · exact (mswConflict hq hp h).elim

/-! ### Structural lemmas about the pipeline components -/

theorem alwaysHuman_cases {mv : MVal} (h : alwaysHumanB mv = true) :
    mv = .mNull ∨ mv = .mStr "NEEDS_HUMAN" ∨ mv = .mStr "SKIP" := by
  cases mv with
  | mStr s =>
    simp only [alwaysHumanB, Bool.or_eq_true, beq_iff_eq] at h
    rcases h with h | h <;> subst h <;> simp
  | mNull => exact Or.inl rfl
  | mOther => exact Bool.noConfusion h

theorem saa_of_inAuto {mv : MVal} (h : inAutoExact mv = true) :
    startsAnyAuto mv = true := by
  cases mv with
  | mStr s =>
    simp only [inAutoExact, Bool.or_eq_true, beq_iff_eq] at h
    rcases h with ((((h | h) | h) | h) | h) | h <;> subst h <;> decide
  | mNull => exact Bool.noConfusion h
  | mOther => exact Bool.noConfusion h

theorem sas_of_saa {mv : MVal} (h : startsAnyAuto mv = true) :
    startsAnySpecial mv = true := by
  simp only [startsAnyAuto, Bool.or_eq_true] at h
  simp only [startsAnySpecial, Bool.or_eq_true]
  tauto

theorem sas_of_contentTag {mv : MVal} (h : contentTagB mv = true) :
    startsAnySpecial mv = true := by
  simp only [contentTagB, Bool.or_eq_true] at h
  simp only [startsAnySpecial, Bool.or_eq_true]
  tauto

theorem resolveEntry_some_cases {profile : Profile} {fields : List Field}
    {fid : String} {mv : MVal} {v : PVal}
    (h : resolveEntry profile fields fid mv = some v) :
    mapping_starts_with mv "ACKNOWLEDGE_TRUE" = true ∨
    (isSpecialExact mv = false ∧ startsAnySpecial mv = false) := by
  rcases Bool.eq_false_or_eq_true (mapping_starts_with mv "ACKNOWLEDGE_TRUE") with hACK | hACK
  · exact Or.inl hACK
  · rcases Bool.eq_false_or_eq_true (isSpecialExact mv) with hSE | hSE
    · simp [resolveEntry, hACK, hSE] at h
    · rcases Bool.eq_false_or_eq_true (startsAnySpecial mv) with hSA | hSA
      · simp [resolveEntry, hACK, hSE, hSA] at h
      · exact Or.inr ⟨hSE, hSA⟩

theorem alwaysHumanFalse_of_ne {s : String} (h1 : s ≠ "NEEDS_HUMAN")
    (h2 : s ≠ "SKIP") : alwaysHumanB (.mStr s) = false := by
  simp only [alwaysHumanB, Bool.or_eq_false_iff, beq_eq_false_iff_ne]
  exact ⟨h1, h2⟩

theorem resolveEntry_none_of_sas {profile : Profile} {fields : List Field}
    {fid : String} {mv : MVal} (hsa : startsAnySpecial mv = true)
    (hack : mapping_starts_with mv "ACKNOWLEDGE_TRUE" = false) :
    resolveEntry profile fields fid mv = none := by
  cases hSE : isSpecialExact mv <;> simp [resolveEntry, hack, hSE, hsa]

theorem resolveEntry_ack {profile : Profile} {fields : List Field}
    {fid : String} {mv : MVal}
    (hack : mapping_starts_with mv "ACKNOWLEDGE_TRUE" = true) :
    resolveEntry profile fields fid mv = some (.leaf (.vStr "Yes")) := by
  simp [resolveEntry, hack]

theorem escB_false_of_ack {mv : MVal} {rs gh fvh : Bool}
    (hack : mapping_starts_with mv "ACKNOWLEDGE_TRUE" = true) :
    escB mv rs gh fvh = false := by
  have hNH := msw_excl "NEEDS_HUMAN" hack (by rfl)
  have hSK := msw_excl "SKIP" hack (by rfl)
  have hRU := msw_excl "RESUME_UPLOAD" hack (by rfl)
  have hCF := msw_excl "COVER_LETTER_FULL" hack (by rfl)
  have hCB := msw_excl "COVER_LETTER_BODY" hack (by rfl)
  have hCW := msw_excl "COVER_LETTER_WHY" hack (by rfl)
  have hGA := msw_excl "GENERATE_ANSWER" hack (by rfl)
  have hAH : alwaysHumanB mv = false := by
    rcases Bool.eq_false_or_eq_true (alwaysHumanB mv) with hh | hh
    · exfalso
      rcases alwaysHuman_cases hh with h | h | h <;> subst h
      · exact Bool.noConfusion hack
      · exact absurd hack (by decide)
      · exact absurd hack (by decide)
    · exact hh
  simp [escB, hAH, hNH, hSK, hRU, contentTagB, hCF, hCB, hCW, hGA, hack]

theorem escB_false_of_clean {mv : MVal} {rs gh : Bool}
    (hse : isSpecialExact mv = false) (hsa : startsAnySpecial mv = false) :
    escB mv rs gh true = false := by
  simp only [startsAnySpecial, Bool.or_eq_false_iff] at hsa
  obtain ⟨⟨⟨⟨⟨⟨⟨⟨hRU, hCF⟩, hCB⟩, hCW⟩, hGA⟩, hNH⟩, hACK⟩, hSK⟩, hUK⟩ := hsa
  have hAH : alwaysHumanB mv = false := by
    rcases Bool.eq_false_or_eq_true (alwaysHumanB mv) with hh | hh
    · exfalso
      rcases alwaysHuman_cases hh with h | h | h <;> subst h <;>
        exact absurd hse (by decide)
    · exact hh
  simp [escB, hAH, hNH, hSK, hRU, contentTagB, hCF, hCB, hCW, hGA, hACK]

theorem mem_fieldValues_iff {fm : List (String × MVal)} {profile : Profile}
    {fields : List Field} {fid : String} {v : PVal} :
    (fid, v) ∈ fieldValuesL fm profile fields ↔
    ∃ mv, (fid, mv) ∈ fm ∧ resolveEntry profile fields fid mv = some v := by
  unfold fieldValuesL
  rw [List.mem_filterMap]
  constructor
  · rintro ⟨⟨a, mv⟩, hmem, hf⟩
    simp only [Option.map_eq_some'] at hf
    obtain ⟨w, hw, heq⟩ := hf
    injection heq with h1 h2
    subst h1
    subst h2
    exact ⟨mv, hmem, hw⟩
  · rintro ⟨mv, hmem, hres⟩
    exact ⟨(fid, mv), hmem, by simp [hres]⟩

theorem mem_genContent_iff {fm : List (String × MVal)} {ct wt : String}
    {br : Option (List (String × Option String))} {fid a : String} :
    (fid, a) ∈ genContentL fm ct wt br ↔
    (contentFieldsL fm ≠ [] ∧ (ct ≠ "" ∨ wt ≠ "")) ∧
    (fid, some a) ∈ br.getD [] ∧
    (a != "" && !(strStartsWith a "NEEDS_HUMAN")) = true := by
  unfold genContentL
  by_cases hc : contentFieldsL fm ≠ [] ∧ (ct ≠ "" ∨ wt ≠ "")
  · rw [if_pos hc]
    rw [List.mem_filterMap]
    constructor
    · rintro ⟨⟨b, oa⟩, hmem, hf⟩
      cases oa with
      | some s =>
        rw [keepAnswer] at hf
        by_cases hcond : (s != "" && !(strStartsWith s "NEEDS_HUMAN")) = true
        · rw [if_pos hcond] at hf
          injection hf with heq
          injection heq with h1 h2
          subst h1
          subst h2
          exact ⟨hc, hmem, hcond⟩
        · rw [if_neg hcond] at hf
          exact Option.noConfusion hf
      | none =>
        rw [keepAnswer] at hf
        exact Option.noConfusion hf
    · rintro ⟨hcc, hmem, hcond⟩
      refine ⟨(fid, some a), hmem, ?_⟩
      rw [keepAnswer, if_pos hcond]
  · rw [if_neg hc]
    simp [hc]

theorem mem_needsHuman_iff {fm : List (String × MVal)} {rs : Bool}
    {gc : List (String × String)} {fv : List (String × PVal)} {fid : String} :
    fid ∈ needsHumanL fm rs gc fv ↔
    ∃ mv, (fid, mv) ∈ fm ∧
      escB mv rs ((List.lookup fid gc).isSome) ((List.lookup fid fv).isSome) = true := by
  unfold needsHumanL
  rw [List.mem_filterMap]
  constructor
  · rintro ⟨⟨a, mv⟩, hmem, hf⟩
    by_cases he : escB mv rs ((List.lookup a gc).isSome) ((List.lookup a fv).isSome) = true
    · rw [if_pos he] at hf
      injection hf with h1
      subst h1
      exact ⟨mv, hmem, he⟩
    · rw [if_neg he] at hf
      exact Option.noConfusion hf
  · rintro ⟨mv, hmem, he⟩
    exact ⟨(fid, mv), hmem, by rw [if_pos he]⟩

theorem lookup_of_nodup_mem {α : Type} {l : List (String × α)}
    (h : (l.map Prod.fst).Nodup) {k : String} {v : α} (hm : (k, v) ∈ l) :
    List.lookup k l = some v := by
  induction l with
  | nil => cases hm
  | cons p t ih =>
    obtain ⟨a, b⟩ := p
    simp only [List.map_cons, List.nodup_cons] at h
    rcases List.mem_cons.mp hm with he | ht
    · injection he with h1 h2
      subst h1
      subst h2
      simp [List.lookup]
    · have hne : k ≠ a := by
        intro hk
        subst hk
        exact h.1 (List.mem_map_of_mem Prod.fst ht)
      have hb : (k == a) = false := by simp [hne]
      simp only [List.lookup, hb]
      exact ih h.2 ht

theorem keys_filterMap_sublist {α β : Type} (f : String × α → Option β)
    (key : β → String) (hf : ∀ p b, f p = some b → key b = p.1)
    (l : List (String × α)) :
    ((l.filterMap f).map key).Sublist (l.map Prod.fst) := by
  induction l with
  | nil => simp
  | cons p t ih =>
    cases hres : f p with
    | none =>
      rw [List.filterMap_cons_none hres]
      exact ih.cons p.1
    | some b =>
      rw [List.filterMap_cons_some hres]
      simp only [List.map_cons, hf p b hres]
      exact ih.cons₂ p.1

theorem fieldValues_keys_nodup {fm : List (String × MVal)} {profile : Profile}
    {fields : List Field} (hnodup : (fm.map Prod.fst).Nodup) :
    ((fieldValuesL fm profile fields).map Prod.fst).Nodup := by
  refine List.Nodup.sublist ?_ hnodup
  unfold fieldValuesL
  refine keys_filterMap_sublist _ Prod.fst ?_ fm
  intro p b hb
  simp only [Option.map_eq_some'] at hb
  obtain ⟨w, _, heq⟩ := hb
  rw [← heq]

theorem fv_lookup_nodup {fm : List (String × MVal)} {profile : Profile}
    {fields : List Field} {fid : String} {mv : MVal}
    (hnodup : (fm.map Prod.fst).Nodup) (hmem : (fid, mv) ∈ fm) :
    List.lookup fid (fieldValuesL fm profile fields) =
      resolveEntry profile fields fid mv := by
  cases hres : resolveEntry profile fields fid mv with
  | some v =>
    exact lookup_of_nodup_mem (fieldValues_keys_nodup hnodup)
      (mem_fieldValues_iff.mpr ⟨mv, hmem, hres⟩)
  | none =>
    rw [lookup_eq_none_iff]
    intro v hv
    obtain ⟨mv', hmv', hres'⟩ := mem_fieldValues_iff.mp hv
    have heq := nodupKeys_val_eq hnodup hmv' hmem
    rw [heq] at hres'
    rw [hres] at hres'
    exact Option.noConfusion hres'

theorem contentTag_false_of_ack {mv : MVal}
    (hack : mapping_starts_with mv "ACKNOWLEDGE_TRUE" = true) :
    contentTagB mv = false := by
  have hCF := msw_excl "COVER_LETTER_FULL" hack (by rfl)
  have hCB := msw_excl "COVER_LETTER_BODY" hack (by rfl)
  have hCW := msw_excl "COVER_LETTER_WHY" hack (by rfl)
  have hGA := msw_excl "GENERATE_ANSWER" hack (by rfl)
  simp [contentTagB, hCF, hCB, hCW, hGA]

theorem contentTag_false_of_sas {mv : MVal}
    (hsa : startsAnySpecial mv = false) : contentTagB mv = false := by
  rcases Bool.eq_false_or_eq_true (contentTagB mv) with hh | hh
  · rw [sas_of_contentTag hh] at hsa
    exact Bool.noConfusion hsa
  · exact hh

theorem gc_lookup_none {fm : List (String × MVal)} {ct wt : String}
    {br : Option (List (String × Option String))} {fid : String} {mv : MVal}
    (hwf : replyWithinBatch br fm) (hnodup : (fm.map Prod.fst).Nodup)
    (hmem : (fid, mv) ∈ fm) (hct : contentTagB mv = false) :
    List.lookup fid (genContentL fm ct wt br) = none := by
  rw [lookup_eq_none_iff]
  intro a ha
  obtain ⟨_, hmem', hcond⟩ := mem_genContent_iff.mp ha
  obtain ⟨mv', hmv', hct'⟩ := hwf (fid, some a) hmem'
  have heq := nodupKeys_val_eq hnodup hmv' hmem
  rw [heq] at hct'
  rw [hct] at hct'
  exact Bool.noConfusion hct'

theorem fill_isSome_iff (r : Response) (fid : String) :
    (r.fill fid).isSome = true ↔
    (List.lookup fid r.genContent).isSome = true ∨
    (List.lookup fid r.fieldValues).isSome = true := by
  unfold Response.fill
  cases h : List.lookup fid r.genContent <;> simp [h]

theorem fill_eq_none_iff (r : Response) (fid : String) :
    r.fill fid = none ↔
    List.lookup fid r.genContent = none ∧ List.lookup fid r.fieldValues = none := by
  unfold Response.fill
  cases h : List.lookup fid r.genContent <;> simp [h]

theorem pipeline_status (fields : List Field) (profile : Profile)
    (mr : Option (List (String × MVal))) (rp : Option String) (c r : String)
    (cv : Option CoverResult) (br : Option (List (String × Option String))) :
    (pipeline fields profile mr rp c r cv br).status = "complete" := rfl

theorem pipeline_field_mappings (fields : List Field) (profile : Profile)
    (mr : Option (List (String × MVal))) (rp : Option String) (c r : String)
    (cv : Option CoverResult) (br : Option (List (String × Option String))) :
    (pipeline fields profile mr rp c r cv br).field_mappings = mr.getD [] := rfl

theorem pipeline_fieldValues (fields : List Field) (profile : Profile)
    (mr : Option (List (String × MVal))) (rp : Option String) (c r : String)
    (cv : Option CoverResult) (br : Option (List (String × Option String))) :
    (pipeline fields profile mr rp c r cv br).fieldValues =
    fieldValuesL (mr.getD []) profile fields := rfl

theorem pipeline_genContent (fields : List Field) (profile : Profile)
    (mr : Option (List (String × MVal))) (rp : Option String) (c r : String)
    (cv : Option CoverResult) (br : Option (List (String × Option String))) :
    (pipeline fields profile mr rp c r cv br).genContent =
    genContentL (mr.getD []) (ctextOf (mr.getD []) c r cv)
      (wtextOf (mr.getD []) c r cv) br := rfl

theorem pipeline_files_resume (fields : List Field) (profile : Profile)
    (mr : Option (List (String × MVal))) (rp : Option String) (c r : String)
    (cv : Option CoverResult) (br : Option (List (String × Option String))) :
    (pipeline fields profile mr rp c r cv br).files_resume =
    filesResume (mr.getD []) rp := rfl

theorem pipeline_needs_human (fields : List Field) (profile : Profile)
    (mr : Option (List (String × MVal))) (rp : Option String) (c r : String)
    (cv : Option CoverResult) (br : Option (List (String × Option String))) :
    (pipeline fields profile mr rp c r cv br).needs_human =
    needsHumanL (mr.getD []) (filesResume (mr.getD []) rp).isSome
      (genContentL (mr.getD []) (ctextOf (mr.getD []) c r cv)
        (wtextOf (mr.getD []) c r cv) br)
      (fieldValuesL (mr.getD []) profile fields) := rfl

theorem ne_of_msw_false {s q : String}
    (h : mapping_starts_with (.mStr s) q = false) : s ≠ q := by
  intro he
  subst he
  rw [show mapping_starts_with (MVal.mStr s) s = strStartsWith s s from rfl,
    strStartsWith_self] at h
  exact Bool.noConfusion h

theorem alwaysHuman_false_of_msw {mv : MVal} {p : String}
    (hp : mapping_starts_with mv p = true)
    (h1 : ("NEEDS_HUMAN".data.isPrefixOf p.data ||
      p.data.isPrefixOf "NEEDS_HUMAN".data) = false)
    (h2 : ("SKIP".data.isPrefixOf p.data || p.data.isPrefixOf "SKIP".data) = false) :
    alwaysHumanB mv = false := by
  rcases Bool.eq_false_or_eq_true (alwaysHumanB mv) with hh | hh
  · exfalso
    rcases alwaysHuman_cases hh with h | h | h <;> subst h
    · exact Bool.noConfusion hp
    · exact mswConflict (show mapping_starts_with (MVal.mStr "NEEDS_HUMAN")
        "NEEDS_HUMAN" = true from strStartsWith_self "NEEDS_HUMAN") hp h1
    · exact mswConflict (show mapping_starts_with (MVal.mStr "SKIP")
        "SKIP" = true from strStartsWith_self "SKIP") hp h2
  · exact hh

theorem sas_of_specialExact {s : String} (h : isSpecialExact (.mStr s) = true) :
    startsAnySpecial (.mStr s) = true := by
  simp only [isSpecialExact, Bool.or_eq_true, beq_iff_eq] at h
  rcases h with ((((((((h | h) | h) | h) | h) | h) | h) | h) | h) <;> subst h <;> decide

theorem se_false_of_sas {s : String}
    (hsa : startsAnySpecial (.mStr s) = false) : isSpecialExact (.mStr s) = false := by
  rcases Bool.eq_false_or_eq_true (isSpecialExact (.mStr s)) with hh | hh
  · rw [sas_of_specialExact hh] at hsa
    exact Bool.noConfusion hsa
  · exact hh

theorem inAuto_false_of_sas {mv : MVal}
    (hsa : startsAnySpecial mv = false) : inAutoExact mv = false := by
  rcases Bool.eq_false_or_eq_true (inAutoExact mv) with hh | hh
  · rw [sas_of_saa (saa_of_inAuto hh)] at hsa
    exact Bool.noConfusion hsa
  · exact hh

theorem escB_true_generic {mv : MVal} (hse : isSpecialExact mv = false)
    (hsa : startsAnySpecial mv = false) (rs gh : Bool) :
    escB mv rs gh false = true := by
  cases mv with
  | mNull => exact absurd hse (by decide)
  | mOther => rfl
  | mStr s =>
    have hIA := inAuto_false_of_sas hsa
    have hsac := hsa
    simp only [startsAnySpecial, Bool.or_eq_false_iff] at hsac
    obtain ⟨⟨⟨⟨⟨⟨⟨⟨hRU0, hCF0⟩, hCB0⟩, hCW0⟩, hGA0⟩, hNH0⟩, hACK0⟩, hSK0⟩, hUK0⟩ := hsac
    have hAH := alwaysHumanFalse_of_ne (ne_of_msw_false hNH0) (ne_of_msw_false hSK0)
    simp [escB, hAH, hNH0, hSK0, hRU0, contentTagB, hCF0, hCB0, hCW0, hGA0,
      hACK0, hIA, startsAnyAuto]

theorem fill_of_gc_none {r : Response} {fid : String}
    (h : List.lookup fid r.genContent = none) :
    r.fill fid = List.lookup fid r.fieldValues := by
  unfold Response.fill
  rw [h]

theorem mem_of_lookup_eq_some {α : Type} {l : List (String × α)} {k : String}
    {v : α} (h : List.lookup k l = some v) : (k, v) ∈ l := by
  induction l with
  | nil => exact Option.noConfusion h
  | cons p t ih =>
    obtain ⟨a, b⟩ := p
    rcases Bool.eq_false_or_eq_true (k == a) with hb | hb
    · simp only [List.lookup, hb] at h
      injection h with h1
      subst h1
      have hka : k = a := beq_iff_eq.mp hb
      subst hka
      exact List.mem_cons_self _ _
    · simp only [List.lookup, hb] at h
      exact List.mem_cons_of_mem _ (ih h)

theorem strDropLen_append (p q : String) : strDropLen (p ++ q) p = q := by
  unfold strDropLen
  rw [String.data_append, List.drop_left]

theorem contains_append_left {l₁ l₂ : List Char} {c : Char}
    (h : l₁.contains c = true) : (l₁ ++ l₂).contains c = true := by
  induction l₁ with
  | nil => exact Bool.noConfusion h
  | cons a t ih =>
    rw [List.cons_append]
    simp only [List.contains_cons, Bool.or_eq_true] at h ⊢
    rcases h with h | h
    · exact Or.inl h
    · exact Or.inr (ih h)

theorem hasDot_custom (key : String) :
    hasDot ("custom_answers." ++ key) = true := by
  unfold hasDot
  rw [String.data_append]
  exact contains_append_left (by rfl)

theorem sas_custom (key : String) :
    startsAnySpecial (.mStr ("custom_answers." ++ key)) = false := by
  rcases Bool.eq_false_or_eq_true
    (startsAnySpecial (.mStr ("custom_answers." ++ key))) with hh | hh
  · exfalso
    have hc := strStartsWith_append_left "custom_answers." key
    simp only [startsAnySpecial, mapping_starts_with, Bool.or_eq_true] at hh
    rcases hh with ((((((((h | h) | h) | h) | h) | h) | h) | h) | h) <;>
      exact startsConflict h hc (by rfl)
  · exact hh

theorem snd_mem_of_mem_foldr (g : Field → List (String × Field))
    (hg : ∀ f p, p ∈ g f → p.2 = f) :
    ∀ (l : List Field) (p : String × Field),
      p ∈ l.foldr (fun f acc => g f ++ acc) [] → p.2 ∈ l := by
  intro l
  induction l with
  | nil =>
    intro p h
    exact absurd h (List.not_mem_nil p)
  | cons f t ih =>
    intro p h
    rw [List.foldr_cons] at h
    rcases List.mem_append.mp h with h | h
    · rw [hg f p h]
      exact List.mem_cons_self _ _
    · exact List.mem_cons_of_mem _ (ih p h)

theorem fieldMapInserts_snd_mem {fields : List Field} {p : String × Field}
    (h : p ∈ fieldMapInserts fields) : p.2 ∈ fields := by
  refine snd_mem_of_mem_foldr _ ?_ fields p h
  intro f q hq
  rcases List.mem_append.mp hq with hq1 | hq1
  · rcases List.mem_append.mp hq1 with hq2 | hq2
    · rcases Bool.eq_false_or_eq_true (f.id != "") with hc | hc
      · rw [if_pos hc] at hq2
        rw [List.mem_singleton.mp hq2]
      · rw [if_neg (by simp [hc])] at hq2
        exact absurd hq2 (List.not_mem_nil q)
    · rcases Bool.eq_false_or_eq_true (f.name != "" && f.name != f.id) with hc | hc
      · rw [if_pos hc] at hq2
        rw [List.mem_singleton.mp hq2]
      · rw [if_neg (by simp [hc])] at hq2
        exact absurd hq2 (List.not_mem_nil q)
  · rw [List.mem_singleton.mp hq1]

theorem fieldMapLookup_mem {fields : List Field} {key : String} {f : Field}
    (h : fieldMapLookup fields key = some f) : f ∈ fields := by
  unfold fieldMapLookup at h
  have hm := mem_of_lookup_eq_some h
  rw [List.mem_reverse] at hm
  exact fieldMapInserts_snd_mem hm

theorem getD_chain_ok (A B C D : Option (Except Unit Val)) (d : Except Unit Val)
    (hA : ∀ r, A = some r → ∃ v, r = .ok v) (hB : ∀ r, B = some r → ∃ v, r = .ok v)
    (hC : ∀ r, C = some r → ∃ v, r = .ok v) (hD : ∀ r, D = some r → ∃ v, r = .ok v)
    (hd : ∃ v, d = .ok v) :
    ∃ v, ((A.orElse fun _ => (B.orElse fun _ => (C.orElse fun _ => D))).getD d)
      = .ok v := by
  cases hA' : A with
  | some r =>
    obtain ⟨v, hv⟩ := hA r hA'
    exact ⟨v, by simp [Option.orElse, hv]⟩
  | none =>
    cases hB' : B with
    | some r =>
      obtain ⟨v, hv⟩ := hB r hB'
      exact ⟨v, by simp [Option.orElse, hv]⟩
    | none =>
      cases hC' : C with
      | some r =>
        obtain ⟨v, hv⟩ := hC r hC'
        exact ⟨v, by simp [Option.orElse, hv]⟩
      | none =>
        cases hD' : D with
        | some r =>
          obtain ⟨v, hv⟩ := hD r hD'
          exact ⟨v, by simp [Option.orElse, hv]⟩
        | none =>
          obtain ⟨v, hv⟩ := hd
          exact ⟨v, by simp [Option.orElse, hv]⟩

theorem convert_no_keyError (b : Bool) {opts : List OptEntry}
    (h : ∀ o ∈ opts, (OptEntry.value o).isSome = true) :
    ∃ v, convert_boolean_to_option (.vBool b) opts = .ok v := by
  have hpv : ∀ lit r, pickByValue opts lit = some r → ∃ v, r = .ok v := by
    intro lit r hr
    unfold pickByValue at hr
    simp only [Option.map_eq_some'] at hr
    obtain ⟨o, _, heq⟩ := hr
    exact ⟨_, heq.symm⟩
  have hpt : ∀ lit r, pickByText opts lit = some r → ∃ v, r = .ok v := by
    intro lit r hr
    unfold pickByText at hr
    simp only [Option.map_eq_some'] at hr
    obtain ⟨o, ho, heq⟩ := hr
    have hov := h o (List.mem_of_find?_eq_some ho)
    cases hv : o.value with
    | some s =>
      rw [hv] at heq
      exact ⟨_, heq.symm⟩
    | none =>
      rw [hv] at hov
      exact Bool.noConfusion hov
  rcases Bool.eq_false_or_eq_true opts.isEmpty with he | he
  · exact ⟨.vBool b, by simp [convert_boolean_to_option, he]⟩
  · cases b
    · obtain ⟨v, hv⟩ := getD_chain_ok (pickByValue opts "no") (pickByText opts "no")
        (pickByValue opts "false") (pickByText opts "false")
        (.ok (.vBool false)) (hpv "no") (hpt "no") (hpv "false") (hpt "false") ⟨_, rfl⟩
      refine ⟨v, ?_⟩
      rw [← hv]
      simp [convert_boolean_to_option, he]
    · obtain ⟨v, hv⟩ := getD_chain_ok (pickByValue opts "yes") (pickByText opts "yes")
        (pickByValue opts "true") (pickByText opts "true")
        (.ok (.vBool true)) (hpv "yes") (hpt "yes") (hpv "true") (hpt "true") ⟨_, rfl⟩
      refine ⟨v, ?_⟩
      rw [← hv]
      simp [convert_boolean_to_option, he]

theorem convert_no_match_true (opts : List OptEntry)
    (h1 : opts.find? (fun o => optValLower o == "yes") = none)
    (h2 : opts.find? (fun o => optTextLower o == "yes") = none)
    (h3 : opts.find? (fun o => optValLower o == "true") = none)
    (h4 : opts.find? (fun o => optTextLower o == "true") = none) :
    convert_boolean_to_option (.vBool true) opts = .ok (.vBool true) := by
  rcases Bool.eq_false_or_eq_true opts.isEmpty with he | he
  · simp [convert_boolean_to_option, he]
  · simp [convert_boolean_to_option, he, pickByValue, pickByText, h1, h2, h3,
      h4, Option.orElse]

theorem convert_no_match_false (opts : List OptEntry)
    (h1 : opts.find? (fun o => optValLower o == "no") = none)
    (h2 : opts.find? (fun o => optTextLower o == "no") = none)
    (h3 : opts.find? (fun o => optValLower o == "false") = none)
    (h4 : opts.find? (fun o => optTextLower o == "false") = none) :
    convert_boolean_to_option (.vBool false) opts = .ok (.vBool false) := by
  rcases Bool.eq_false_or_eq_true opts.isEmpty with he | he
  · simp [convert_boolean_to_option, he]
  · simp [convert_boolean_to_option, he, pickByValue, pickByText, h1, h2, h3,
      h4, Option.orElse]

/-! ### Claim theorems -/

/-- C1, counterexample: the input field `f1` is absent from the action
mapping (here the mapping only mentions `f2`), and `f1` then appears in
none of fill values, `needs_human`, or the SKIP-matched set — the union of
the three sets does not cover the input field-id set, and a field whose
action is absent from the ActionMapping does not escalate. -/
theorem c1_counterexample :
    "f1" ∈ List.map Field.id [({ id := "f1", name := "f1", options := [] } : Field)] ∧
    ¬("f1" ∈ (pipeline [{ id := "f1", name := "f1", options := [] }] []
        (some [("f2", MVal.mStr "NEEDS_HUMAN")]) none "" "" none none).needs_human ∨
      ((pipeline [{ id := "f1", name := "f1", options := [] }] []
        (some [("f2", MVal.mStr "NEEDS_HUMAN")]) none "" "" none none).fill "f1").isSome = true ∨
      skipB (pipeline [{ id := "f1", name := "f1", options := [] }] []
        (some [("f2", MVal.mStr "NEEDS_HUMAN")]) none "" "" none none).field_mappings "f1" = true) := by
  constructor
  · decide
  · intro h
    rcases h with h | h | h
    · revert h
      decide
    · exact Bool.noConfusion h
    · revert h
      decide

/-- C3, counterexample: a field whose mapped action is exactly `SKIP` is
not silently skipped — it appears in the returned `needs_human` list (it is
still not filled). -/
theorem c3_counterexample :
    "f4" ∈ (pipeline [{ id := "f4", name := "f4", options := [] }] []
      (some [("f4", MVal.mStr "SKIP")]) none "" "" none none).needs_human ∧
    (pipeline [{ id := "f4", name := "f4", options := [] }] []
      (some [("f4", MVal.mStr "SKIP")]) none "" "" none none).fill "f4" = none := by
  constructor
  · decide
  · rfl

/-- C4, counterexample: a boolean profile value coerced against a
non-empty option list in which no option value or text case-insensitively
equals the preferred literals is filled as the raw boolean `true`, not as
the string `"Yes"`. -/
theorem c4_counterexample :
    (pipeline [⟨"f1", "f1", [⟨some "1", some "Affirmative"⟩]⟩]
      [("a", PVal.obj [("b", PVal.leaf (Val.vBool true))])]
      (some [("f1", MVal.mStr "a.b")]) none "" "" none none).fill "f1" =
    some (PVal.leaf (Val.vBool true)) := by rfl

/-- C5, counterexample: when the mapping generator reply is unparseable
(`none`), the mapping is treated as empty and the input field `f1` does NOT
escalate — `needs_human` is empty, contradicting the claim that every input
field escalates. -/
theorem c5_counterexample :
    "f1" ∈ List.map Field.id [({ id := "f1", name := "f1", options := [] } : Field)] ∧
    (pipeline [{ id := "f1", name := "f1", options := [] }] [] none none "" ""
      none none).needs_human = [] := by
  constructor
  · decide
  · rfl

/-- C2, counterexample: a content-generator reply naming a field id outside
the submitted batch (here `f1`, mapped `NEEDS_HUMAN`) makes that id appear
in both the merged fill values and `needs_human` of the same response. -/
theorem c2_counterexample :
    "f1" ∈ (pipeline [] []
      (some [("f1", MVal.mStr "NEEDS_HUMAN"), ("f2", MVal.mStr "COVER_LETTER_WHY")])
      none "Acme" "Eng" (some { body_text := "BODY", paragraph := "WHY", docx_path := "cl.docx" })
      (some [("f1", some "rogue")])).needs_human ∧
    ((pipeline [] []
      (some [("f1", MVal.mStr "NEEDS_HUMAN"), ("f2", MVal.mStr "COVER_LETTER_WHY")])
      none "Acme" "Eng" (some { body_text := "BODY", paragraph := "WHY", docx_path := "cl.docx" })
      (some [("f1", some "rogue")])).fill "f1").isSome = true := by
  constructor
  · decide
  · rfl

/-- C5, corrected: when the mapping generator reply cannot be parsed, the
pipeline treats the ActionMapping as empty and still returns a complete
(non-error) response; but no field escalates — `needs_human` and the fill
values are empty, because fields absent from the mapping are dropped rather
than escalated. -/
theorem c5_amended (fields : List Field) (profile : Profile)
    (resumePath : Option String) (company role : String)
    (coverReply : Option CoverResult)
    (batchReply : Option (List (String × Option String))) :
    (pipeline fields profile none resumePath company role coverReply batchReply).status
      = "complete" ∧
    (pipeline fields profile none resumePath company role coverReply batchReply).field_mappings
      = [] ∧
    (pipeline fields profile none resumePath company role coverReply batchReply).needs_human
      = [] ∧
    ∀ fid, (pipeline fields profile none resumePath company role coverReply
      batchReply).fill fid = none := by
  exact ⟨rfl, rfl, rfl, fun fid => rfl⟩

/-- C3, amended claim proved: a field whose mapped action matches `SKIP` is
never filled, but it is not silent — it appears in the returned
`needs_human` list (assuming unique mapping keys, as JSON objects provide,
and a content-generator reply confined to the submitted batch). -/
theorem c3_amended (fields : List Field) (profile : Profile)
    (mappingReply : Option (List (String × MVal))) (resumePath : Option String)
    (company role : String) (coverReply : Option CoverResult)
    (batchReply : Option (List (String × Option String))) (fid : String) (mv : MVal)
    (hnodup : ((mappingReply.getD []).map Prod.fst).Nodup)
    (hwf : replyWithinBatch batchReply (mappingReply.getD []))
    (hmem : (fid, mv) ∈ mappingReply.getD [])
    (hskip : mapping_starts_with mv "SKIP" = true) :
    fid ∈ (pipeline fields profile mappingReply resumePath company role
      coverReply batchReply).needs_human ∧
    (pipeline fields profile mappingReply resumePath company role
      coverReply batchReply).fill fid = none := by
  constructor
  · rw [pipeline_needs_human]
    apply mem_needsHuman_iff.mpr
    refine ⟨mv, hmem, ?_⟩
    rcases Bool.eq_false_or_eq_true (alwaysHumanB mv) with hAH | hAH
    · simp [escB, hAH]
    · simp [escB, hAH, hskip]
  · rw [fill_eq_none_iff]
    constructor
    · rw [pipeline_genContent]
      apply gc_lookup_none hwf hnodup hmem
      have hCF := msw_excl "COVER_LETTER_FULL" hskip (by rfl)
      have hCB := msw_excl "COVER_LETTER_BODY" hskip (by rfl)
      have hCW := msw_excl "COVER_LETTER_WHY" hskip (by rfl)
      have hGA := msw_excl "GENERATE_ANSWER" hskip (by rfl)
      simp [contentTagB, hCF, hCB, hCW, hGA]
    · rw [pipeline_fieldValues]
      rw [fv_lookup_nodup hnodup hmem]
      apply resolveEntry_none_of_sas
      · simp [startsAnySpecial, hskip]
      · exact msw_excl "ACKNOWLEDGE_TRUE" hskip (by rfl)

/-- C1, amended claim proved: every field id in the domain of the returned
ActionMapping lands in fill values, or in `needs_human`, or matches `SKIP`,
or is a `RESUME_UPLOAD` field satisfied by a found resume file (fields
absent from the mapping are covered by none of these — see the
counterexample). -/
theorem c1_amended (fields : List Field) (profile : Profile)
    (mappingReply : Option (List (String × MVal))) (resumePath : Option String)
    (company role : String) (coverReply : Option CoverResult)
    (batchReply : Option (List (String × Option String))) (fid : String) (mv : MVal)
    (hmem : (fid, mv) ∈ mappingReply.getD []) :
    fid ∈ (pipeline fields profile mappingReply resumePath company role
      coverReply batchReply).needs_human ∨
    ((pipeline fields profile mappingReply resumePath company role
      coverReply batchReply).fill fid).isSome = true ∨
    mapping_starts_with mv "SKIP" = true ∨
    (mapping_starts_with mv "RESUME_UPLOAD" = true ∧
      ((pipeline fields profile mappingReply resumePath company role
        coverReply batchReply).files_resume).isSome = true) := by
  by_cases hgc : (List.lookup fid (genContentL (mappingReply.getD [])
      (ctextOf (mappingReply.getD []) company role coverReply)
      (wtextOf (mappingReply.getD []) company role coverReply) batchReply)).isSome = true
  · right
    left
    apply (fill_isSome_iff _ _).mpr
    rw [pipeline_genContent]
    exact Or.inl hgc
  · by_cases hfv : (List.lookup fid (fieldValuesL (mappingReply.getD [])
        profile fields)).isSome = true
    · right
      left
      apply (fill_isSome_iff _ _).mpr
      rw [pipeline_fieldValues]
      exact Or.inr hfv
    · have hgc0 := Bool.eq_false_iff.mpr hgc
      have hfv0 := Bool.eq_false_iff.mpr hfv
      cases mv with
      | mNull =>
        left
        rw [pipeline_needs_human]
        exact mem_needsHuman_iff.mpr ⟨.mNull, hmem, by simp [escB, alwaysHumanB]⟩
      | mOther =>
        left
        rw [pipeline_needs_human]
        apply mem_needsHuman_iff.mpr
        refine ⟨.mOther, hmem, ?_⟩
        rw [hgc0, hfv0]
        rfl
      | mStr s =>
        by_cases hRU : mapping_starts_with (.mStr s) "RESUME_UPLOAD" = true
        · by_cases hrs : (filesResume (mappingReply.getD []) resumePath).isSome = true
          · refine Or.inr (Or.inr (Or.inr ⟨hRU, ?_⟩))
            rw [pipeline_files_resume]
            exact hrs
          · left
            rw [pipeline_needs_human]
            apply mem_needsHuman_iff.mpr
            refine ⟨_, hmem, ?_⟩
            rw [hgc0, hfv0, Bool.eq_false_iff.mpr hrs]
            have hNH := msw_excl "NEEDS_HUMAN" hRU (by rfl)
            have hSK := msw_excl "SKIP" hRU (by rfl)
            have hAH := alwaysHumanFalse_of_ne (ne_of_msw_false hNH) (ne_of_msw_false hSK)
            simp [escB, hAH, hNH, hSK, hRU]
        · by_cases hCT : contentTagB (.mStr s) = true
          · left
            rw [pipeline_needs_human]
            apply mem_needsHuman_iff.mpr
            refine ⟨_, hmem, ?_⟩
            rw [hgc0, hfv0]
            simp only [contentTagB, Bool.or_eq_true] at hCT
            rcases hCT with ((h | h) | h) | h
            all_goals
              have hNH := msw_excl "NEEDS_HUMAN" h (by rfl)
              have hSK := msw_excl "SKIP" h (by rfl)
              have hAH := alwaysHumanFalse_of_ne (ne_of_msw_false hNH) (ne_of_msw_false hSK)
              have hRU0 := Bool.eq_false_iff.mpr hRU
              simp [escB, hAH, hNH, hSK, hRU0, contentTagB, h]
          · have hCT0 := Bool.eq_false_iff.mpr hCT
            by_cases hACK : mapping_starts_with (.mStr s) "ACKNOWLEDGE_TRUE" = true
            · exfalso
              have hmemv : (fid, PVal.leaf (Val.vStr "Yes")) ∈
                  fieldValuesL (mappingReply.getD []) profile fields :=
                mem_fieldValues_iff.mpr ⟨_, hmem, resolveEntry_ack hACK⟩
              have hsome := lookup_isSome_of_mem hmemv
              rw [hfv0] at hsome
              exact Bool.noConfusion hsome
            · by_cases hSK : mapping_starts_with (.mStr s) "SKIP" = true
              · exact Or.inr (Or.inr (Or.inl hSK))
              · left
                rw [pipeline_needs_human]
                apply mem_needsHuman_iff.mpr
                refine ⟨_, hmem, ?_⟩
                rw [hgc0, hfv0]
                have hRU0 := Bool.eq_false_iff.mpr hRU
                have hSK0 := Bool.eq_false_iff.mpr hSK
                have hACK0 := Bool.eq_false_iff.mpr hACK
                simp only [contentTagB, Bool.or_eq_false_iff] at hCT0
                obtain ⟨⟨⟨hCF0, hCB0⟩, hCW0⟩, hGA0⟩ := hCT0
                by_cases hNH : mapping_starts_with (.mStr s) "NEEDS_HUMAN" = true
                · rcases Bool.eq_false_or_eq_true (alwaysHumanB (.mStr s)) with hAH | hAH
                  · simp [escB, hAH]
                  · simp [escB, hAH, hNH]
                · have hNH0 := Bool.eq_false_iff.mpr hNH
                  have hAH := alwaysHumanFalse_of_ne (ne_of_msw_false hNH0) (ne_of_msw_false hSK0)
                  have hIA : inAutoExact (.mStr s) = false := by
                    rcases Bool.eq_false_or_eq_true (inAutoExact (.mStr s)) with hh | hh
                    · have hsaa := saa_of_inAuto hh
                      simp only [startsAnyAuto, Bool.or_eq_true] at hsaa
                      rcases hsaa with ((((hx | hx) | hx) | hx) | hx) | hx
                      · rw [hRU0] at hx
                        exact Bool.noConfusion hx
                      · rw [hCF0] at hx
                        exact Bool.noConfusion hx
                      · rw [hCB0] at hx
                        exact Bool.noConfusion hx
                      · rw [hCW0] at hx
                        exact Bool.noConfusion hx
                      · rw [hGA0] at hx
                        exact Bool.noConfusion hx
                      · rw [hACK0] at hx
                        exact Bool.noConfusion hx
                    · exact hh
                  simp [escB, hAH, hNH0, hSK0, hRU0, contentTagB, hCF0, hCB0,
                    hCW0, hGA0, hACK0, hIA, startsAnyAuto]

/-- C2, amended claim proved: when the content generator reply names only
field ids of the submitted batch (and the mapping keys are unique, as a
parsed JSON object guarantees), no field id appears in both the merged fill
values and the `needs_human` list of the same response.  An unrestricted
reply violates this — see the counterexample. -/
theorem c2_amended (fields : List Field) (profile : Profile)
    (mappingReply : Option (List (String × MVal))) (resumePath : Option String)
    (company role : String) (coverReply : Option CoverResult)
    (batchReply : Option (List (String × Option String))) (fid : String)
    (hnodup : ((mappingReply.getD []).map Prod.fst).Nodup)
    (hwf : replyWithinBatch batchReply (mappingReply.getD [])) :
    ¬(fid ∈ (pipeline fields profile mappingReply resumePath company role
        coverReply batchReply).needs_human ∧
      ((pipeline fields profile mappingReply resumePath company role
        coverReply batchReply).fill fid).isSome = true) := by
  rintro ⟨hnh, hfill⟩
  rw [pipeline_needs_human] at hnh
  obtain ⟨mv, hmem, hesc⟩ := mem_needsHuman_iff.mp hnh
  rw [fill_isSome_iff, pipeline_genContent, pipeline_fieldValues] at hfill
  rcases hfill with hg | hf
  · obtain ⟨a, ha⟩ := (lookup_isSome_iff _ _).mp hg
    obtain ⟨_, hmem', hcond⟩ := mem_genContent_iff.mp ha
    obtain ⟨mv', hmv', hct'⟩ := hwf (fid, some a) hmem'
    have heq := nodupKeys_val_eq hnodup hmv' hmem
    rw [heq] at hct'
    rw [hg] at hesc
    simp only [contentTagB, Bool.or_eq_true] at hct'
    rcases hct' with ((h | h) | h) | h
    all_goals
      have hNH := msw_excl "NEEDS_HUMAN" h (by rfl)
      have hSK := msw_excl "SKIP" h (by rfl)
      have hRU := msw_excl "RESUME_UPLOAD" h (by rfl)
      have hACK := msw_excl "ACKNOWLEDGE_TRUE" h (by rfl)
      have hAH := alwaysHuman_false_of_msw h (by rfl) (by rfl)
      simp [escB, hAH, hNH, hSK, hRU, hACK, contentTagB, h, startsAnyAuto] at hesc
  · obtain ⟨v, hv⟩ := (lookup_isSome_iff _ _).mp hf
    obtain ⟨mv', hmv', hres'⟩ := mem_fieldValues_iff.mp hv
    have heq := nodupKeys_val_eq hnodup hmv' hmem
    rw [heq] at hres'
    rw [hf] at hesc
    rcases resolveEntry_some_cases hres' with hACK | ⟨hse, hsa⟩
    · rw [escB_false_of_ack hACK] at hesc
      exact Bool.noConfusion hesc
    · rw [escB_false_of_clean hse hsa] at hesc
      exact Bool.noConfusion hesc

/-- C6, confirmed: every field whose mapped action matches
`ACKNOWLEDGE_TRUE` (prefix match, suffixes included) is filled with the
fixed string "Yes" and never escalates, for every profile content and
regardless of resume lookup, cover-letter, or content-generation outcomes
(the generator reply staying within its batch, mapping keys unique). -/
theorem c6_acknowledge (fields : List Field) (profile : Profile)
    (mappingReply : Option (List (String × MVal))) (resumePath : Option String)
    (company role : String) (coverReply : Option CoverResult)
    (batchReply : Option (List (String × Option String))) (fid : String) (mv : MVal)
    (hnodup : ((mappingReply.getD []).map Prod.fst).Nodup)
    (hwf : replyWithinBatch batchReply (mappingReply.getD []))
    (hmem : (fid, mv) ∈ mappingReply.getD [])
    (hack : mapping_starts_with mv "ACKNOWLEDGE_TRUE" = true) :
    (pipeline fields profile mappingReply resumePath company role coverReply
      batchReply).fill fid = some (.leaf (.vStr "Yes")) ∧
    fid ∉ (pipeline fields profile mappingReply resumePath company role
      coverReply batchReply).needs_human := by
  constructor
  · have hgc : List.lookup fid (pipeline fields profile mappingReply resumePath
        company role coverReply batchReply).genContent = none := by
      rw [pipeline_genContent]
      exact gc_lookup_none hwf hnodup hmem (contentTag_false_of_ack hack)
    rw [fill_of_gc_none hgc, pipeline_fieldValues, fv_lookup_nodup hnodup hmem,
      resolveEntry_ack hack]
  · intro hnh
    rw [pipeline_needs_human] at hnh
    obtain ⟨mv', hmv', hesc⟩ := mem_needsHuman_iff.mp hnh
    have heq := nodupKeys_val_eq hnodup hmv' hmem
    rw [heq] at hesc
    rw [escB_false_of_ack hack] at hesc
    exact Bool.noConfusion hesc

/-- C7, confirmed: a batch field whose generated entry is missing, null,
empty, or equal to / starting with `NEEDS_HUMAN` — in particular every
batch field when the generator reply is unparseable (`batchReply = none`) —
receives no fill value, escalates in `needs_human`, and the response is
still complete (the pipeline does not raise). -/
theorem c7_needs_human_content (fields : List Field) (profile : Profile)
    (mappingReply : Option (List (String × MVal))) (resumePath : Option String)
    (company role : String) (coverReply : Option CoverResult)
    (batchReply : Option (List (String × Option String))) (fid : String) (mv : MVal)
    (hnodup : ((mappingReply.getD []).map Prod.fst).Nodup)
    (hmem : (fid, mv) ∈ mappingReply.getD [])
    (hct : contentTagB mv = true)
    (hbad : ∀ v, (fid, v) ∈ batchReply.getD [] →
      v = none ∨ ∃ a, v = some a ∧ (a = "" ∨ strStartsWith a "NEEDS_HUMAN" = true)) :
    (pipeline fields profile mappingReply resumePath company role coverReply
      batchReply).fill fid = none ∧
    fid ∈ (pipeline fields profile mappingReply resumePath company role
      coverReply batchReply).needs_human ∧
    (pipeline fields profile mappingReply resumePath company role coverReply
      batchReply).status = "complete" := by
  have hgcn : List.lookup fid (genContentL (mappingReply.getD [])
      (ctextOf (mappingReply.getD []) company role coverReply)
      (wtextOf (mappingReply.getD []) company role coverReply) batchReply) = none := by
    rw [lookup_eq_none_iff]
    intro a ha
    obtain ⟨_, hmem', hcond⟩ := mem_genContent_iff.mp ha
    rcases hbad (some a) hmem' with hv | ⟨a', hva, hrest⟩
    · exact Option.noConfusion hv
    · injection hva with hva'
      subst hva'
      rcases hrest with he | hn
      · subst he
        simp at hcond
      · rw [hn] at hcond
        simp at hcond
  have hackf : mapping_starts_with mv "ACKNOWLEDGE_TRUE" = false := by
    have hctc := hct
    simp only [contentTagB, Bool.or_eq_true] at hctc
    rcases hctc with ((h | h) | h) | h <;>
      exact msw_excl "ACKNOWLEDGE_TRUE" h (by rfl)
  have hfvn : List.lookup fid (fieldValuesL (mappingReply.getD []) profile
      fields) = none := by
    rw [fv_lookup_nodup hnodup hmem]
    exact resolveEntry_none_of_sas (sas_of_contentTag hct) hackf
  refine ⟨?_, ?_, rfl⟩
  · rw [fill_eq_none_iff]
    constructor
    · rw [pipeline_genContent]
      exact hgcn
    · rw [pipeline_fieldValues]
      exact hfvn
  · rw [pipeline_needs_human]
    apply mem_needsHuman_iff.mpr
    refine ⟨mv, hmem, ?_⟩
    rw [hgcn, hfvn]
    have hctc := hct
    simp only [contentTagB, Bool.or_eq_true] at hctc
    rcases hctc with ((h | h) | h) | h
    all_goals
      have hNH := msw_excl "NEEDS_HUMAN" h (by rfl)
      have hSK := msw_excl "SKIP" h (by rfl)
      have hRU := msw_excl "RESUME_UPLOAD" h (by rfl)
      have hAH := alwaysHuman_false_of_msw h (by rfl) (by rfl)
      simp [escB, hAH, hNH, hSK, hRU, contentTagB, h]

/-- C8, confirmed: for a field mapped to a profile path (a dotted string
matching no action tag), a found value of null or the empty string — and a
path that resolves to nothing at all — produces no fill entry and the field
escalates, while a found numeric value (in particular 0) is filled as-is
and a found boolean (in particular false) always produces a fill value
(options carrying a `value` key, as the FieldDescriptor model requires). -/
theorem c8_empty_vs_falsy (fields : List Field) (profile : Profile)
    (mappingReply : Option (List (String × MVal))) (resumePath : Option String)
    (company role : String) (coverReply : Option CoverResult)
    (batchReply : Option (List (String × Option String))) (fid s : String)
    (hnodup : ((mappingReply.getD []).map Prod.fst).Nodup)
    (hwf : replyWithinBatch batchReply (mappingReply.getD []))
    (hopt : ∀ f ∈ fields, ∀ o ∈ Field.options f, (OptEntry.value o).isSome = true)
    (hmem : (fid, .mStr s) ∈ mappingReply.getD [])
    (hsa : startsAnySpecial (.mStr s) = false)
    (hdot : hasDot s = true) :
    ((lookupRaw profile s = some (.leaf .vNull) ∨
      lookupRaw profile s = some (.leaf (.vStr "")) ∨ lookupRaw profile s = none) →
      ((pipeline fields profile mappingReply resumePath company role coverReply
          batchReply).fill fid = none ∧
        fid ∈ (pipeline fields profile mappingReply resumePath company role
          coverReply batchReply).needs_human)) ∧
    (∀ n : Int, lookupRaw profile s = some (.leaf (.vNum n)) →
      (pipeline fields profile mappingReply resumePath company role coverReply
        batchReply).fill fid = some (.leaf (.vNum n))) ∧
    (∀ b : Bool, lookupRaw profile s = some (.leaf (.vBool b)) →
      ((pipeline fields profile mappingReply resumePath company role coverReply
        batchReply).fill fid).isSome = true) := by
  have hse := se_false_of_sas hsa
  have hcomp := hsa
  simp only [startsAnySpecial, Bool.or_eq_false_iff] at hcomp
  obtain ⟨⟨⟨⟨⟨⟨⟨⟨hRU0, hCF0⟩, hCB0⟩, hCW0⟩, hGA0⟩, hNH0⟩, hACK0⟩, hSK0⟩, hUK0⟩ := hcomp
  have hct0 : contentTagB (.mStr s) = false := contentTag_false_of_sas hsa
  have hgcn : List.lookup fid (genContentL (mappingReply.getD [])
      (ctextOf (mappingReply.getD []) company role coverReply)
      (wtextOf (mappingReply.getD []) company role coverReply) batchReply) = none :=
    gc_lookup_none hwf hnodup hmem hct0
  have hgcp : List.lookup fid (pipeline fields profile mappingReply resumePath
      company role coverReply batchReply).genContent = none := by
    rw [pipeline_genContent]
    exact hgcn
  have hfveq : List.lookup fid (fieldValuesL (mappingReply.getD []) profile
      fields) = resolveEntry profile fields fid (.mStr s) :=
    fv_lookup_nodup hnodup hmem
  refine ⟨?_, ?_, ?_⟩
  · intro hcase
    have hren : resolveEntry profile fields fid (.mStr s) = none := by
      rcases hcase with h | h | h <;>
        simp [resolveEntry, hACK0, hse, hsa, hdot, h, isEmptyVal]
    constructor
    · rw [fill_eq_none_iff]
      constructor
      · exact hgcp
      · rw [pipeline_fieldValues, hfveq]
        exact hren
    · rw [pipeline_needs_human]
      apply mem_needsHuman_iff.mpr
      refine ⟨_, hmem, ?_⟩
      rw [hgcn, hfveq, hren]
      exact escB_true_generic hse hsa _ _
  · intro n h
    have hres : resolveEntry profile fields fid (.mStr s) =
        some (.leaf (.vNum n)) := by
      simp [resolveEntry, hACK0, hse, hsa, hdot, h, isEmptyVal]
    rw [fill_of_gc_none hgcp, pipeline_fieldValues, hfveq, hres]
  · intro b h
    have hre : ∃ v, resolveEntry profile fields fid (.mStr s) = some v := by
      cases hfm : fieldMapLookup fields fid with
      | none =>
        exact ⟨.leaf (.vStr (if b then "Yes" else "No")),
          by simp [resolveEntry, hACK0, hse, hsa, hdot, h, isEmptyVal, hfm]⟩
      | some finfo =>
        rcases Bool.eq_false_or_eq_true finfo.options.isEmpty with hoe | hoe
        · exact ⟨.leaf (.vStr (if b then "Yes" else "No")),
            by simp [resolveEntry, hACK0, hse, hsa, hdot, h, isEmptyVal, hfm, hoe]⟩
        · obtain ⟨v, hv⟩ := convert_no_keyError b
            (fun o ho => hopt finfo (fieldMapLookup_mem hfm) o ho)
          exact ⟨.leaf v,
            by simp [resolveEntry, hACK0, hse, hsa, hdot, h, isEmptyVal, hfm, hoe, hv]⟩
    obtain ⟨v, hv⟩ := hre
    rw [fill_of_gc_none hgcp, pipeline_fieldValues, hfveq, hv]
    rfl

/-- C9, confirmed: the resolver treats any `custom_answers.`-tagged mapping
string by stripping the tag once and using the entire remainder — dots,
spaces and punctuation included — as a single literal key of
`profile.custom_answers`: the raw lookup refines `customKeyLookup`, an
absent sub-mapping or key yields no fill entry (NotFound), and a present
non-empty string value is returned verbatim. -/
theorem c9_custom_answers (profile : Profile) (fields : List Field)
    (fid key : String) :
    lookupRaw profile ("custom_answers." ++ key) = customKeyLookup profile key ∧
    (customKeyLookup profile key = none →
      resolveEntry profile fields fid (.mStr ("custom_answers." ++ key)) = none) ∧
    (∀ t, t ≠ "" → customKeyLookup profile key = some (.leaf (.vStr t)) →
      resolveEntry profile fields fid (.mStr ("custom_answers." ++ key)) =
        some (.leaf (.vStr t))) := by
  have hsw := strStartsWith_append_left "custom_answers." key
  have h1 : lookupRaw profile ("custom_answers." ++ key) =
      customKeyLookup profile key := by
    unfold lookupRaw customKeyLookup
    rw [if_pos hsw, strDropLen_append]
  have hsa := sas_custom key
  have hse := se_false_of_sas hsa
  have hcomp := hsa
  simp only [startsAnySpecial, Bool.or_eq_false_iff] at hcomp
  obtain ⟨⟨⟨⟨⟨⟨⟨⟨hRU0, hCF0⟩, hCB0⟩, hCW0⟩, hGA0⟩, hNH0⟩, hACK0⟩, hSK0⟩, hUK0⟩ := hcomp
  have hdot := hasDot_custom key
  refine ⟨h1, ?_, ?_⟩
  · intro h0
    simp [resolveEntry, hACK0, hse, hsa, hdot, h1, h0]
  · intro t ht h0
    have hne : (t == "") = false := by simp [ht]
    simp [resolveEntry, hACK0, hse, hsa, hdot, h1, h0, isEmptyVal, hne]

/-- C10, confirmed: with at least one `GENERATE_ANSWER` field but no
cover-letter field in the mapping, the response is independent of both the
cover-letter collaborator reply and the content-generator reply (neither is
consulted — no grounding text exists, so the batch is skipped), and every
`GENERATE_ANSWER` field escalates with no fill value. -/
theorem c10_generate_needs_cover (fields : List Field) (profile : Profile)
    (mappingReply : Option (List (String × MVal))) (resumePath : Option String)
    (company role : String) (cover1 cover2 : Option CoverResult)
    (batch1 batch2 : Option (List (String × Option String)))
    (hnodup : ((mappingReply.getD []).map Prod.fst).Nodup)
    (hga : ∃ p ∈ mappingReply.getD [],
      mapping_starts_with p.2 "GENERATE_ANSWER" = true)
    (hnc : ∀ p ∈ mappingReply.getD [], coverTagB p.2 = false) :
    pipeline fields profile mappingReply resumePath company role cover1 batch1 =
      pipeline fields profile mappingReply resumePath company role cover2 batch2 ∧
    ∀ fid mv, (fid, mv) ∈ mappingReply.getD [] →
      mapping_starts_with mv "GENERATE_ANSWER" = true →
      fid ∈ (pipeline fields profile mappingReply resumePath company role
        cover1 batch1).needs_human ∧
      (pipeline fields profile mappingReply resumePath company role cover1
        batch1).fill fid = none := by
  have hcf : coverFields (mappingReply.getD []) = [] := by
    unfold coverFields
    rw [List.filter_eq_nil_iff]
    intro p hp
    rw [hnc p hp]
    exact Bool.noConfusion
  have hcr1 : coverResultO (mappingReply.getD []) company role cover1 = none := by
    unfold coverResultO
    rw [if_neg]
    rintro ⟨hc, -⟩
    exact hc hcf
  have hcr2 : coverResultO (mappingReply.getD []) company role cover2 = none := by
    unfold coverResultO
    rw [if_neg]
    rintro ⟨hc, -⟩
    exact hc hcf
  have hct1 : ctextOf (mappingReply.getD []) company role cover1 = "" := by
    unfold ctextOf
    rw [hcr1]
    rfl
  have hct2 : ctextOf (mappingReply.getD []) company role cover2 = "" := by
    unfold ctextOf
    rw [hcr2]
    rfl
  have hwt1 : wtextOf (mappingReply.getD []) company role cover1 = "" := by
    unfold wtextOf
    rw [hcr1]
    rfl
  have hwt2 : wtextOf (mappingReply.getD []) company role cover2 = "" := by
    unfold wtextOf
    rw [hcr2]
    rfl
  have hgc1 : genContentL (mappingReply.getD []) "" "" batch1 = [] := by
    unfold genContentL
    rw [if_neg]
    rintro ⟨-, h | h⟩ <;> exact h rfl
  have hgc2 : genContentL (mappingReply.getD []) "" "" batch2 = [] := by
    unfold genContentL
    rw [if_neg]
    rintro ⟨-, h | h⟩ <;> exact h rfl
  constructor
  · simp only [pipeline]
    rw [hct1, hct2, hwt1, hwt2, hcr1, hcr2, hgc1, hgc2]
  · intro fid mv hmemv hga'
    cases mv with
    | mNull => exact Bool.noConfusion hga'
    | mOther => exact Bool.noConfusion hga'
    | mStr s =>
      have hsa : startsAnySpecial (.mStr s) = true := by
        simp [startsAnySpecial, hga']
      have hackf := msw_excl "ACKNOWLEDGE_TRUE" hga' (by rfl)
      have hfvn : List.lookup fid (fieldValuesL (mappingReply.getD []) profile
          fields) = none := by
        rw [fv_lookup_nodup hnodup hmemv]
        exact resolveEntry_none_of_sas hsa hackf
      constructor
      · rw [pipeline_needs_human]
        apply mem_needsHuman_iff.mpr
        refine ⟨_, hmemv, ?_⟩
        rw [hct1, hwt1, hgc1, hfvn]
        have hNH := msw_excl "NEEDS_HUMAN" hga' (by rfl)
        have hSK := msw_excl "SKIP" hga' (by rfl)
        have hRU := msw_excl "RESUME_UPLOAD" hga' (by rfl)
        have hAH := alwaysHumanFalse_of_ne (ne_of_msw_false hNH) (ne_of_msw_false hSK)
        simp [escB, hAH, hNH, hSK, hRU, contentTagB, hga']
      · rw [fill_eq_none_iff]
        constructor
        · rw [pipeline_genContent, hct1, hwt1, hgc1]
          rfl
        · rw [pipeline_fieldValues]
          exact hfvn

/-- C4, amended claim proved: when a boolean profile value is coerced and no
option matches the preferred literals, the literal "Yes"/"No" fallback
applies only when the option list is empty or the field is unknown to the
field map; with a non-empty option list the resolved fill value is the raw
boolean, not "Yes"/"No". -/
theorem c4_amended (profile : Profile) (fields : List Field) (fid s : String)
    (b : Bool)
    (hsa : startsAnySpecial (.mStr s) = false)
    (hdot : hasDot s = true)
    (hres : lookupRaw profile s = some (.leaf (.vBool b)))
    (hnm : ∀ fi, fieldMapLookup fields fid = some fi → ∀ o ∈ Field.options fi,
      optValLower o ≠ (if b then "yes" else "no") ∧
      optTextLower o ≠ (if b then "yes" else "no") ∧
      optValLower o ≠ (if b then "true" else "false") ∧
      optTextLower o ≠ (if b then "true" else "false")) :
    resolveEntry profile fields fid (.mStr s) =
      some (.leaf (match fieldMapLookup fields fid with
        | some fi =>
          if fi.options.isEmpty then Val.vStr (if b then "Yes" else "No")
          else Val.vBool b
        | none => Val.vStr (if b then "Yes" else "No"))) := by
  have hse := se_false_of_sas hsa
  have hcomp := hsa
  simp only [startsAnySpecial, Bool.or_eq_false_iff] at hcomp
  obtain ⟨⟨⟨⟨⟨⟨⟨⟨hRU0, hCF0⟩, hCB0⟩, hCW0⟩, hGA0⟩, hNH0⟩, hACK0⟩, hSK0⟩, hUK0⟩ := hcomp
  cases hfm : fieldMapLookup fields fid with
  | none => simp [resolveEntry, hACK0, hse, hsa, hdot, hres, isEmptyVal, hfm]
  | some fi =>
    rcases Bool.eq_false_or_eq_true fi.options.isEmpty with hoe | hoe
    · simp [resolveEntry, hACK0, hse, hsa, hdot, hres, isEmptyVal, hfm, hoe]
    · have hcv : convert_boolean_to_option (.vBool b) fi.options =
          .ok (.vBool b) := by
        cases b
        · apply convert_no_match_false
          · apply List.find?_eq_none.mpr
            intro o ho
            have h' := (hnm fi hfm o ho).1
            simp at h' ⊢
            exact h'
          · apply List.find?_eq_none.mpr
            intro o ho
            have h' := (hnm fi hfm o ho).2.1
            simp at h' ⊢
            exact h'
          · apply List.find?_eq_none.mpr
            intro o ho
            have h' := (hnm fi hfm o ho).2.2.1
            simp at h' ⊢
            exact h'
          · apply List.find?_eq_none.mpr
            intro o ho
            have h' := (hnm fi hfm o ho).2.2.2
            simp at h' ⊢
            exact h'
        · apply convert_no_match_true
          · apply List.find?_eq_none.mpr
            intro o ho
            have h' := (hnm fi hfm o ho).1
            simp at h' ⊢
            exact h'
          · apply List.find?_eq_none.mpr
            intro o ho
            have h' := (hnm fi hfm o ho).2.1
            simp at h' ⊢
            exact h'
          · apply List.find?_eq_none.mpr
            intro o ho
            have h' := (hnm fi hfm o ho).2.2.1
            simp at h' ⊢
            exact h'
          · apply List.find?_eq_none.mpr
            intro o ho
            have h' := (hnm fi hfm o ho).2.2.2
            simp at h' ⊢
            exact h'
      simp [resolveEntry, hACK0, hse, hsa, hdot, hres, isEmptyVal, hfm, hoe, hcv]

/-! ### Witnesses -/

/-- Witness for C1's amended theorem at a concrete `UNKNOWN`-mapped field. -/
theorem c1_amended_witness :
    "u1" ∈ (pipeline [] [] (some [("u1", MVal.mStr "UNKNOWN")]) none "" ""
      none none).needs_human ∨
    ((pipeline [] [] (some [("u1", MVal.mStr "UNKNOWN")]) none "" ""
      none none).fill "u1").isSome = true ∨
    mapping_starts_with (MVal.mStr "UNKNOWN") "SKIP" = true ∨
    (mapping_starts_with (MVal.mStr "UNKNOWN") "RESUME_UPLOAD" = true ∧
      ((pipeline [] [] (some [("u1", MVal.mStr "UNKNOWN")]) none "" ""
        none none).files_resume).isSome = true) :=
  c1_amended [] [] (some [("u1", MVal.mStr "UNKNOWN")]) none "" "" none none
    "u1" (MVal.mStr "UNKNOWN") (by decide)

/-- Witness for C2's amended theorem at a concrete profile-path field with a
well-behaved (empty) generator reply. -/
theorem c2_amended_witness :
    ¬("f1" ∈ (pipeline [] [] (some [("f1", MVal.mStr "personal.email")]) none
        "" "" none none).needs_human ∧
      ((pipeline [] [] (some [("f1", MVal.mStr "personal.email")]) none "" ""
        none none).fill "f1").isSome = true) :=
  c2_amended [] [] (some [("f1", MVal.mStr "personal.email")]) none "" "" none
    none "f1" (by decide) (fun p hp => absurd hp (List.not_mem_nil p))

/-- Witness for C3's amended theorem at a concrete `SKIP` field. -/
theorem c3_amended_witness :
    "f4" ∈ (pipeline [] [] (some [("f4", MVal.mStr "SKIP")]) none "" "" none
      none).needs_human ∧
    (pipeline [] [] (some [("f4", MVal.mStr "SKIP")]) none "" "" none
      none).fill "f4" = none :=
  c3_amended [] [] (some [("f4", MVal.mStr "SKIP")]) none "" "" none none "f4"
    (MVal.mStr "SKIP") (by decide) (fun p hp => absurd hp (List.not_mem_nil p))
    (by decide) (by decide)

/-- Witness for C4's amended theorem: boolean `true` against the single
non-matching option keeps the raw boolean. -/
theorem c4_amended_witness :
    resolveEntry [("a", PVal.obj [("b", PVal.leaf (Val.vBool true))])]
      [⟨"f1", "f1", [⟨some "1", some "Affirmative"⟩]⟩] "f1" (.mStr "a.b") =
      some (.leaf (match fieldMapLookup
          [⟨"f1", "f1", [⟨some "1", some "Affirmative"⟩]⟩] "f1" with
        | some fi =>
          if fi.options.isEmpty then Val.vStr (if true then "Yes" else "No")
          else Val.vBool true
        | none => Val.vStr (if true then "Yes" else "No"))) :=
  c4_amended [("a", PVal.obj [("b", PVal.leaf (Val.vBool true))])]
    [⟨"f1", "f1", [⟨some "1", some "Affirmative"⟩]⟩] "f1" "a.b" true
    (by decide) (by decide) rfl
    (by
      intro fi hfi
      have h2 : some (⟨"f1", "f1", [⟨some "1", some "Affirmative"⟩]⟩ : Field)
          = some fi := hfi
      injection h2 with h
      subst h
      decide)

/-- Witness for C6 at a suffix-carrying `ACKNOWLEDGE_TRUE` field. -/
theorem c6_acknowledge_witness :
    (pipeline [] [] (some [("a1", MVal.mStr "ACKNOWLEDGE_TRUE:checkbox")])
      none "" "" none none).fill "a1" = some (.leaf (.vStr "Yes")) ∧
    "a1" ∉ (pipeline [] [] (some [("a1", MVal.mStr "ACKNOWLEDGE_TRUE:checkbox")])
      none "" "" none none).needs_human :=
  c6_acknowledge [] [] (some [("a1", MVal.mStr "ACKNOWLEDGE_TRUE:checkbox")])
    none "" "" none none "a1" (MVal.mStr "ACKNOWLEDGE_TRUE:checkbox")
    (by decide) (fun p hp => absurd hp (List.not_mem_nil p)) (by decide)
    (by decide)

/-- Witness for C7 at a batch field whose generated text starts with
`NEEDS_HUMAN`. -/
theorem c7_needs_human_content_witness :
    (pipeline [] [] (some [("f3", MVal.mStr "COVER_LETTER_WHY")]) none "Acme"
      "Eng" (some ⟨"BODY", "WHY", "cl.docx"⟩)
      (some [("f3", some "NEEDS_HUMAN: cannot answer")])).fill "f3" = none ∧
    "f3" ∈ (pipeline [] [] (some [("f3", MVal.mStr "COVER_LETTER_WHY")]) none
      "Acme" "Eng" (some ⟨"BODY", "WHY", "cl.docx"⟩)
      (some [("f3", some "NEEDS_HUMAN: cannot answer")])).needs_human ∧
    (pipeline [] [] (some [("f3", MVal.mStr "COVER_LETTER_WHY")]) none "Acme"
      "Eng" (some ⟨"BODY", "WHY", "cl.docx"⟩)
      (some [("f3", some "NEEDS_HUMAN: cannot answer")])).status = "complete" :=
  c7_needs_human_content [] [] (some [("f3", MVal.mStr "COVER_LETTER_WHY")])
    none "Acme" "Eng" (some ⟨"BODY", "WHY", "cl.docx"⟩)
    (some [("f3", some "NEEDS_HUMAN: cannot answer")]) "f3"
    (MVal.mStr "COVER_LETTER_WHY") (by decide) (by decide) (by decide)
    (by
      intro v hv
      have h2 : ("f3", v) = ("f3", some "NEEDS_HUMAN: cannot answer") :=
        List.mem_singleton.mp hv
      injection h2 with h2a h2b
      exact Or.inr ⟨"NEEDS_HUMAN: cannot answer", h2b, Or.inr (by decide)⟩)

/-- Witness for C8 at a profile path resolving to the number 0. -/
theorem c8_empty_vs_falsy_witness :
    (pipeline [] [("personal", PVal.obj [("n", PVal.leaf (Val.vNum 0))])]
      (some [("f8", MVal.mStr "personal.n")]) none "" "" none none).fill "f8" =
      some (PVal.leaf (Val.vNum 0)) :=
  (c8_empty_vs_falsy [] [("personal", PVal.obj [("n", PVal.leaf (Val.vNum 0))])]
    (some [("f8", MVal.mStr "personal.n")]) none "" "" none none "f8"
    "personal.n" (by decide) (fun p hp => absurd hp (List.not_mem_nil p))
    (fun f hf => absurd hf (List.not_mem_nil f)) (by decide) (by decide)
    (by decide)).2.1 0 rfl

/-- Witness for C9 at a custom-answer key containing spaces, punctuation and
a question mark. -/
theorem c9_custom_answers_witness :
    resolveEntry [("custom_answers", PVal.obj
        [("How did you hear about us?", PVal.leaf (Val.vStr "LinkedIn"))])] []
      "f9" (.mStr ("custom_answers." ++ "How did you hear about us?")) =
      some (.leaf (.vStr "LinkedIn")) :=
  (c9_custom_answers [("custom_answers", PVal.obj
      [("How did you hear about us?", PVal.leaf (Val.vStr "LinkedIn"))])] []
    "f9" "How did you hear about us?").2.2 "LinkedIn" (by decide) rfl

/-- Witness for C10 at a lone `GENERATE_ANSWER` mapping: the response ignores
both collaborator replies and the field escalates unfilled. -/
theorem c10_generate_needs_cover_witness :
    (pipeline [] [] (some [("g1", MVal.mStr "GENERATE_ANSWER")]) none "Acme"
        "Eng" (some ⟨"B", "W", "p.docx"⟩) (some [("g1", some "text")]) =
      pipeline [] [] (some [("g1", MVal.mStr "GENERATE_ANSWER")]) none "Acme"
        "Eng" none none) ∧
    ("g1" ∈ (pipeline [] [] (some [("g1", MVal.mStr "GENERATE_ANSWER")]) none
        "Acme" "Eng" (some ⟨"B", "W", "p.docx"⟩)
        (some [("g1", some "text")])).needs_human ∧
      (pipeline [] [] (some [("g1", MVal.mStr "GENERATE_ANSWER")]) none "Acme"
        "Eng" (some ⟨"B", "W", "p.docx"⟩)
        (some [("g1", some "text")])).fill "g1" = none) :=
  ⟨(c10_generate_needs_cover [] [] (some [("g1", MVal.mStr "GENERATE_ANSWER")])
      none "Acme" "Eng" (some ⟨"B", "W", "p.docx"⟩) none
      (some [("g1", some "text")]) none (by decide)
      ⟨("g1", MVal.mStr "GENERATE_ANSWER"), by decide, by decide⟩
      (by decide)).1,
    (c10_generate_needs_cover [] [] (some [("g1", MVal.mStr "GENERATE_ANSWER")])
      none "Acme" "Eng" (some ⟨"B", "W", "p.docx"⟩) none
      (some [("g1", some "text")]) none (by decide)
      ⟨("g1", MVal.mStr "GENERATE_ANSWER"), by decide, by decide⟩
      (by decide)).2 "g1" (MVal.mStr "GENERATE_ANSWER") (by decide) (by decide)⟩

end Jobz
